import Mathlib

/-!
Shallow embedding of the resumable multipart upload engine
(tgrander/nextjs-upload): the upload handler (`uploadHandler.ts`), the
control-plane client (`apiClient.ts`) and the persistence layer
(`databaseService.ts`), together with theorems settling the frozen claims
about the specification.

Conventions of the embedding:
* JavaScript numbers that only ever hold byte counts, part numbers or
  millisecond delays are modelled as `Nat`.
* Promise rejection is modelled with `Except JsError`.
* The network is an explicit environment (`FetchCause`, `PartEnv`): each
  network call reads its outcome from the environment instead of doing IO.
* Broadcast messages become values of the `Event` inductive; in addition the
  trace records `putStarted`/`putSettled` markers delimiting the awaited span
  of each single part PUT attempt, so that statements about how many PUTs are
  in flight at once can be expressed over the trace.
-/

namespace NextjsUpload

/-! ### Constants from `config.ts` (`CONFIG`) -/

def RETRY_ATTEMPTS : Nat := 3

def RETRY_DELAY : Nat := 1000

def RETRY_MAX_DELAY : Nat := 30000

def PART_SIZE : Nat := 10 * 1024 * 1024

def MAX_CONCURRENT_UPLOADS : Nat := 5

def ACCEL_ENABLED : Bool := true

def ACCEL_MIN_SIZE : Nat := 512 * 1024 * 1024

def DEFAULT_ACCEL_ENDPOINT : String := "s3-accelerate.amazonaws.com"

/-! ### Error values (`errors.ts` and the DOM)

`JsError` models the JavaScript error value that a rejected promise carries:
`RetryableError`, `FatalError`, a `DOMException` whose name is `AbortError`
(the rejection produced by `fetch` when its signal aborts), a transport
`TypeError`, and a plain `Error`. -/

inductive JsError
  | retryableErr (msg : String)
  | fatalErr (msg : String)
  | domAbort
  | typeError (msg : String)
  | genericError (msg : String)
deriving Repr, DecidableEq

deriving instance DecidableEq for Except

/-- Model of `error instanceof RetryableError`. -/
def isRetryableInstance : JsError → Bool
  | .retryableErr _ => true
  | _ => false

/-- Model of `error instanceof DOMException && error.name === "AbortError"`. -/
def isDomAbortError : JsError → Bool
  | .domAbort => true
  | _ => false

def jsMessage : JsError → String
  | .retryableErr m => m
  | .fatalErr m => m
  | .domAbort => "The operation was aborted"
  | .typeError m => m
  | .genericError m => m

/-! ### The fetch race (`ApiClient.fetchWithTimeout`, `fetchWithRetry`)

A single `fetch` inside `fetchWithTimeout` can settle four ways, captured by
`FetchCause`: the response arrived; the per-request timeout timer fired the
internal controller; the external cancel token fired (both abort paths make
`fetch` reject with a `DOMException` named `AbortError`); or the transport
failed. -/

structure FetchResponse where
  ok : Bool
  eTag : Option String
deriving Repr, DecidableEq

inductive FetchCause
  | succeeded (resp : FetchResponse)
  | timedOut
  | externallyCancelled
  | transportFailed (msg : String)
deriving Repr, DecidableEq

/-- What the raw `fetch` promise settles with, per cause. Both abort sources
reject with the same `AbortError` `DOMException`; nothing in the value
distinguishes the timeout controller from the external cancel token. -/
def rawFetchResult : FetchCause → Except JsError FetchResponse
  | .succeeded r => .ok r
  | .timedOut => .error .domAbort
  | .externallyCancelled => .error .domAbort
  | .transportFailed m => .error (.typeError m)

/-- Model of `ApiClient.fetchWithTimeout`: an `AbortError` rejection is
rethrown as `RetryableError("Request timed out")`; any other rejection
propagates unchanged. -/
def fetchWithTimeout (cause : FetchCause) : Except JsError FetchResponse :=
  match rawFetchResult cause with
  | .ok r => .ok r
  | .error e =>
      if isDomAbortError e then .error (.retryableErr "Request timed out")
      else .error e

/-- Model of `ApiClient.fetchWithRetry`: retry while the error is a
`RetryableError` and retries remain (`retries > 0`, decremented per retry),
sleeping `RETRY.DELAY` between attempts. `causes i` is the outcome of the
`i`-th attempt; the result also counts the attempts made. -/
def fetchWithRetry (causes : Nat → FetchCause) : Nat → Nat → Nat × Except JsError FetchResponse
  | retries, idx =>
      match fetchWithTimeout (causes idx) with
      | .ok r => (1, .ok r)
      | .error e =>
          match retries with
          | 0 => (1, .error e)
          | r + 1 =>
              if isRetryableInstance e then
                let rest := fetchWithRetry causes r (idx + 1)
                (rest.1 + 1, rest.2)
              else (1, .error e)

/-! ### Broadcast events (`types.ts` outbound messages)

`putStarted`/`putSettled` are not broadcast messages: they instrument the
trace at the points where one `apiClient.uploadPart` call is awaited and where
that await settles, marking the span during which that part PUT is in
flight. -/

inductive Event
  | initiateResponse (contentId uploadId key : String)
  | putStarted (partNumber : Nat)
  | putSettled (partNumber : Nat)
  | skippedPart (partNumber : Nat)
  | chunkUploaded (contentId : String) (partNumber size : Nat)
  | retryingChunk (contentId : String) (partNumber attempt maxAttempts nextAttemptDelay : Nat)
  | progressEv (contentId : String) (progress uploadedBytes totalBytes : Nat)
  | uploadComplete (contentId location : String)
  | uploadError (contentId : String) (retryable : Bool)
  | uploadPausedEv (contentId : String)
  | uploadCancelledEv (contentId : String)
  | uploadStatusEv (contentId status : String)
  | logEv (level msg : String)
deriving Repr, DecidableEq

/-! ### Data model (`types.ts`) -/

structure UploadPartRec where
  partNumber : Nat
  eTag : String
  size : Nat
deriving Repr, DecidableEq

inductive UStatus
  | pending
  | inProgress
  | paused
  | completed
  | errorSt
  | cancelled
deriving Repr, DecidableEq

structure UState where
  id : String
  contentId : String
  uploadId : String
  key : String
  fileName : String
  fileSize : Nat
  partSize : Nat
  maxConcurrentUploads : Nat
  progress : Nat
  status : UStatus
  parts : List UploadPartRec
  errMsg : Option String
  fileUrl : Option String
deriving Repr, DecidableEq

/-! ### Arithmetic helpers of the part driver -/

/-- Model of `Math.ceil(file.size / partSize)`. -/
def totalPartsOf (fileSize partSize : Nat) : Nat :=
  (fileSize + partSize - 1) / partSize

/-- Byte length of the slice `[(pn-1)*partSize, min(pn*partSize, fileSize))`. -/
def chunkSizeOf (fileSize partSize pn : Nat) : Nat :=
  min (pn * partSize) fileSize - (pn - 1) * partSize

/-- Model of `Math.round((completedParts / totalParts) * 100)` on the exact
rational value: `round (100 * c / t) = (200 * c + t) / (2 * t)` with floor
division (JavaScript rounds half up, and the halves that arise here are
represented exactly). -/
def progressOf (completed total : Nat) : Nat :=
  (200 * completed + total) / (2 * total)

/-! ### Handler-level per-part retry (`UploadHandler.uploadPart`)

One call of `this.apiClient.uploadPart` (including its internal
`fetchWithRetry`) either resolves with an ETag or rejects with a `JsError`;
the environment `oracle r` gives the outcome of the call made at handler
retry count `r`. -/

inductive PartCallResult
  | success (eTag : String)
  | failure (e : JsError)
deriving Repr, DecidableEq

/-- Model of `UploadHandler.uploadPart`. On success it broadcasts
`CHUNK_UPLOADED` and resolves with `{partNumber, eTag, size}`. On a failure
that is a `RetryableError`, is not an `AbortError` `DOMException`, and has
retry budget left, it broadcasts `RETRYING_CHUNK`, sleeps
`min(1000 * 2^retryCount, 30000)` and recurses with `retryCount + 1`;
otherwise it rethrows. The source guard `retryCount < RETRY.ATTEMPTS` is
rendered structurally through the remaining-retries counter `budget`, which
equals `RETRY_ATTEMPTS - retryCount` at every call the driver makes (the
entry call is `uploadPartGo oracle cid pn chunkSize 0 RETRY_ATTEMPTS`). -/
def uploadPartGo (oracle : Nat → PartCallResult) (cid : String) (pn chunkSize : Nat) :
    Nat → Nat → List Event × Except JsError UploadPartRec
  | retryCount, 0 =>
      match oracle retryCount with
      | .success etag =>
          ([.putStarted pn, .putSettled pn, .chunkUploaded cid pn chunkSize],
           .ok ⟨pn, etag, chunkSize⟩)
      | .failure e => ([.putStarted pn, .putSettled pn], .error e)
  | retryCount, b + 1 =>
      match oracle retryCount with
      | .success etag =>
          ([.putStarted pn, .putSettled pn, .chunkUploaded cid pn chunkSize],
           .ok ⟨pn, etag, chunkSize⟩)
      | .failure e =>
          if isRetryableInstance e && !isDomAbortError e then
            let delay := min (1000 * 2 ^ retryCount) 30000
            let rest := uploadPartGo oracle cid pn chunkSize (retryCount + 1) b
            (Event.putStarted pn :: Event.putSettled pn ::
               Event.retryingChunk cid pn (retryCount + 1) RETRY_ATTEMPTS delay :: rest.1,
             rest.2)
          else ([.putStarted pn, .putSettled pn], .error e)

/-! ### Persistence store (`databaseService.ts`)

IndexedDB is modelled as association lists. The `uploads` store has key path
`id`, so `saveUploadState` upserts under `state.id`; the `chunks` store keeps
a secondary index on `uploadId`. -/

structure ChunkRec where
  id : String
  uploadId : String
  partNumber : Nat
deriving Repr, DecidableEq

structure Db where
  uploads : List (String × UState)
  chunks : List ChunkRec
deriving Repr, DecidableEq

def saveUploadState (db : Db) (st : UState) : Db :=
  { db with uploads := (db.uploads.filter (fun p => decide (p.1 ≠ st.id))) ++ [(st.id, st)] }

def loadUploadState (db : Db) (id : String) : Option UState :=
  (db.uploads.find? (fun p => decide (p.1 = id))).map (·.2)

def deleteUploadState (db : Db) (id : String) : Db :=
  { db with uploads := db.uploads.filter (fun p => decide (p.1 ≠ id)) }

def loadChunks (db : Db) (uploadId : String) : List ChunkRec :=
  db.chunks.filter (fun c => decide (c.uploadId = uploadId))

def deleteChunks (db : Db) (uploadId : String) : Db :=
  { db with chunks := db.chunks.filter (fun c => decide (c.uploadId ≠ uploadId)) }

def loadAllUploadStates (db : Db) : List UState :=
  db.uploads.map (·.2)

/-! ### In-memory registry (`activeUploads : Map<string, ActiveUpload>`)

The abort controller of an entry is not represented as data; the handlers
instead report whether they fired a cancel token (`tokenFired`). In the
source the registry entry and the local `uploadState` variable alias one
mutated object, so every mutation of the state is mirrored into the registry
entry here. -/

abbrev Registry := List (String × UState)

def regGet (r : Registry) (cid : String) : Option UState :=
  (r.find? (fun p => decide (p.1 = cid))).map (·.2)

def regSet (r : Registry) (cid : String) (st : UState) : Registry :=
  (r.filter (fun p => decide (p.1 ≠ cid))) ++ [(cid, st)]

def regDelete (r : Registry) (cid : String) : Registry :=
  r.filter (fun p => decide (p.1 ≠ cid))

/-! ### The upload engine (`uploadHandler.ts`) -/

/-- Model of `UploadHandler.handleUploadError`: broadcast `UPLOAD_ERROR`
(retryable iff the error is a `RetryableError` instance); if the upload is in
the registry, set its status to `error`, persist it and remove it. -/
def handleUploadError (reg : Registry) (db : Db) (cid : String) (e : JsError) :
    List Event × Registry × Db :=
  let evs := [Event.uploadError cid (isRetryableInstance e)]
  match regGet reg cid with
  | some st =>
      let st2 := { st with status := UStatus.errorSt, errMsg := some (jsMessage e) }
      (evs, regDelete reg cid, saveUploadState db st2)
  | none => (evs, reg, db)

/-- Environment of one `uploadParts` run: the outcome of `listUploadedParts`,
the outcome of each `apiClient.uploadPart` call (per part number and handler
retry count) and the outcome of `completeMultipartUpload`. -/
structure PartEnv where
  listPartsResult : Except JsError (List UploadPartRec)
  partCall : Nat → Nat → PartCallResult
  completeResult : Except JsError String

/-- Model of `UploadHandler.getUploadedParts`: return the parts listed by the
server, or the empty list when `listUploadedParts` rejects. -/
def getUploadedParts (env : PartEnv) : List UploadPartRec × List Event :=
  match env.listPartsResult with
  | .ok ps => (ps, [Event.logEv "info" "Retrieved uploaded parts"])
  | .error _ => ([], [Event.logEv "error" "Failed to retrieve uploaded parts"])

/-- Aggregate result of a part-driving run. -/
structure RunOut where
  events : List Event
  reg : Registry
  db : Db
  st : UState
  outcome : Except JsError Unit
deriving Repr

/-- Model of the `for (let partNumber = 1; ...)` loop in
`UploadHandler.uploadParts`, rendered as structural recursion over the list
of part numbers `1, ..., totalParts` still to visit: skip parts whose number
is in `uploadedPartNumbers` (`skippedPart` stands for the log line
`Skipping already uploaded part N`); otherwise slice the chunk, upload it,
append the part, recompute progress, persist and broadcast
`UPLOAD_PROGRESS` with `uploadedBytes = completedParts * partSize`; on a
rejection run `handleUploadError` and rethrow, stopping the loop. -/
def uploadPartsLoop (env : PartEnv) (totalParts : Nat) (uploadedPartNumbers : List Nat) :
    List Nat → Registry → Db → UState → Nat → RunOut
  | [], reg, db, st, _ =>
      { events := [], reg := reg, db := db, st := st, outcome := .ok () }
  | pn :: pns, reg, db, st, completed =>
      if uploadedPartNumbers.contains pn then
        let rest := uploadPartsLoop env totalParts uploadedPartNumbers pns reg db st completed
        { rest with events := Event.skippedPart pn :: rest.events }
      else
        let cs := chunkSizeOf st.fileSize st.partSize pn
        let put := uploadPartGo (env.partCall pn) st.contentId pn cs 0 RETRY_ATTEMPTS
        match put.2 with
        | .ok part =>
            let completed2 := completed + 1
            let prog := progressOf completed2 totalParts
            let st2 := { st with parts := st.parts ++ [part], progress := prog }
            let reg2 := regSet reg st.contentId st2
            let db2 := saveUploadState db st2
            let pe := Event.progressEv st.contentId prog (completed2 * st.partSize) st.fileSize
            let rest := uploadPartsLoop env totalParts uploadedPartNumbers pns reg2 db2 st2 completed2
            { rest with events := put.1 ++ pe :: rest.events }
        | .error e =>
            let err := handleUploadError reg db st.contentId e
            { events := put.1 ++ err.1, reg := err.2.1, db := err.2.2, st := st,
              outcome := .error e }

/-- Model of `UploadHandler.uploadParts` followed by
`UploadHandler.completeUpload`: reconcile via `getUploadedParts`, drive the
loop over part numbers `1, ..., totalParts`, and if the loop finished call
`completeMultipartUpload`; on its success set `status = completed`, persist,
broadcast `UPLOAD_COMPLETE` and drop the registry entry; on its rejection the
error propagates with no further state change (the persisted status stays
`in_progress` and the registry keeps its entry). -/
def uploadPartsRun (env : PartEnv) (reg : Registry) (db : Db) (st : UState) : RunOut :=
  let totalParts := totalPartsOf st.fileSize st.partSize
  let gp := getUploadedParts env
  let uploadedPartNumbers := gp.1.map (·.partNumber)
  let completed0 := gp.1.length
  let L := uploadPartsLoop env totalParts uploadedPartNumbers (List.range' 1 totalParts) reg db st completed0
  match L.outcome with
  | .error e =>
      { L with events := gp.2 ++ L.events, outcome := .error e }
  | .ok _ =>
      match env.completeResult with
      | .ok location =>
          let st2 := { L.st with status := UStatus.completed, fileUrl := some location }
          { events := gp.2 ++ L.events ++ [Event.uploadComplete st2.contentId location],
            reg := regDelete L.reg st2.contentId,
            db := saveUploadState L.db st2, st := st2, outcome := .ok () }
      | .error e =>
          { L with events := gp.2 ++ L.events, outcome := .error e }

/-- The server response of `initiateMultipartUpload`
(`{uploadId, key, content: {id}, accelerationEndpoint?}`). -/
structure InitResp where
  uploadId : String
  key : String
  contentId : String
  accelerationEndpoint : Option String
deriving Repr, DecidableEq

/-- Model of `UploadHandler.initializeNewUpload` for a successful initiate:
`localUuid` is the value of the local `crypto.randomUUID()` call; the handler
broadcasts `INITIATE_UPLOAD_RESPONSE` carrying that local id, then builds the
`UploadState` whose `id` and `contentId` are the server-assigned
`content.id`; `chunkCfgSize`/`chunkCfgConc` model the optional
`chunkConfig` of the `START_UPLOAD` message
(`chunkConfig?.size ?? CONFIG.PART_SIZE`). -/
def initNewUpload (localUuid : String) (resp : InitResp) (fileName : String)
    (fileSize : Nat) (chunkCfgSize chunkCfgConc : Option Nat) : List Event × UState :=
  ([Event.logEv "info" "Starting upload",
    Event.initiateResponse localUuid resp.uploadId resp.key],
   { id := resp.contentId, contentId := resp.contentId, uploadId := resp.uploadId,
     key := resp.key, fileName := fileName, fileSize := fileSize,
     partSize := chunkCfgSize.getD PART_SIZE,
     maxConcurrentUploads := chunkCfgConc.getD MAX_CONCURRENT_UPLOADS,
     progress := 0, status := UStatus.inProgress, parts := [],
     errMsg := none, fileUrl := none })

/-- Model of `UploadHandler.handleUpload` on a `START_UPLOAD` message whose
initiate call succeeded: initialize the state, register it with a fresh
cancel token, persist it, then drive the parts. -/
def handleUploadStart (env : PartEnv) (reg : Registry) (db : Db) (localUuid : String)
    (resp : InitResp) (fileName : String) (fileSize : Nat)
    (chunkCfgSize chunkCfgConc : Option Nat) : RunOut :=
  let ini := initNewUpload localUuid resp fileName fileSize chunkCfgSize chunkCfgConc
  let st := ini.2
  let reg2 := regSet reg st.contentId st
  let db2 := saveUploadState db st
  let R := uploadPartsRun env reg2 db2 st
  { R with events := ini.1 ++ R.events }

/-- Model of `UploadHandler.resumeUpload`: a no-op when the registry already
holds the content id, otherwise register the state and drive its parts. -/
def resumeUploadRun (env : PartEnv) (reg : Registry) (db : Db) (st : UState) : RunOut :=
  if (regGet reg st.contentId).isSome then
    { events := [], reg := reg, db := db, st := st, outcome := .ok () }
  else
    let reg2 := regSet reg st.contentId st
    uploadPartsRun env reg2 db st

/-- Model of `UploadHandler.loadOngoingUploads`: resume every persisted state
whose status is `in_progress`; a rejection from a resume stops the scan. -/
def loadOngoingGo (env : PartEnv) (states : List UState) (reg : Registry) (db : Db) :
    List Event × Registry × Db × Except JsError Unit :=
  match states with
  | [] => ([], reg, db, .ok ())
  | st :: rest =>
      if st.status = UStatus.inProgress then
        let R := resumeUploadRun env reg db st
        match R.outcome with
        | .error e => (R.events, R.reg, R.db, .error e)
        | .ok _ =>
            let T := loadOngoingGo env rest R.reg R.db
            (R.events ++ T.1, T.2.1, T.2.2.1, T.2.2.2)
      else loadOngoingGo env rest reg db

def loadOngoingUploads (env : PartEnv) (reg : Registry) (db : Db) :
    List Event × Registry × Db × Except JsError Unit :=
  loadOngoingGo env (loadAllUploadStates db) reg db

/-- Model of `UploadHandler.handleResume`: load the persisted state; unless it
exists and is `paused`, log and return. Otherwise set it `in_progress`,
persist, and run `handleUpload` on the `RESUME_UPLOAD` path (re-load, register
with a fresh token, persist, drive parts); any rejection in that body is
caught and routed to `handleUploadError`. -/
def handleResume (env : PartEnv) (reg : Registry) (db : Db) (cid : String) :
    List Event × Registry × Db :=
  match loadUploadState db cid with
  | none => ([Event.logEv "error" "No paused upload found"], reg, db)
  | some st =>
      if st.status ≠ UStatus.paused then
        ([Event.logEv "error" "No paused upload found"], reg, db)
      else
        let st2 := { st with status := UStatus.inProgress }
        let db2 := saveUploadState db st2
        match loadUploadState db2 cid with
        | none =>
            let err := handleUploadError reg db2 cid
              (.genericError "No upload state found to resume")
            (err.1, err.2.1, err.2.2)
        | some st3 =>
            let reg2 := regSet reg cid st3
            let db3 := saveUploadState db2 st3
            let R := uploadPartsRun env reg2 db3 st3
            match R.outcome with
            | .ok _ => (R.events, R.reg, R.db)
            | .error e =>
                let err := handleUploadError R.reg R.db cid e
                (R.events ++ err.1, err.2.1, err.2.2)

/-- The resumption pipeline of `handleResume` once a paused state was found:
set `in_progress`, persist, reload, register with a fresh token, persist
again, drive the parts, and route a rejection to `handleUploadError`. -/
def resumeDriven (env : PartEnv) (reg : Registry) (db : Db) (cid : String)
    (st : UState) : List Event × Registry × Db :=
  let st2 := { st with status := UStatus.inProgress }
  let R := uploadPartsRun env (regSet reg cid st2)
      (saveUploadState (saveUploadState db st2) st2) st2
  match R.outcome with
  | .ok _ => (R.events, R.reg, R.db)
  | .error e =>
      let err := handleUploadError R.reg R.db cid e
      (R.events ++ err.1, err.2.1, err.2.2)

/-- Output of the pause and cancel handlers: the broadcast events, the new
registry and store, whether the cancel token was fired, and whether the
server `cancelUpload` endpoint was called. -/
structure CtlOut where
  events : List Event
  reg : Registry
  db : Db
  tokenFired : Bool
  serverCalled : Bool
deriving Repr

/-- Model of `UploadHandler.handlePause`: return silently when the content id
is not registered; otherwise fire the token, set `status = paused`, persist,
broadcast `UPLOAD_PAUSED` and drop the registry entry. -/
def handlePause (reg : Registry) (db : Db) (cid : String) : CtlOut :=
  match regGet reg cid with
  | none => { events := [], reg := reg, db := db, tokenFired := false, serverCalled := false }
  | some st =>
      let st2 := { st with status := UStatus.paused }
      { events := [Event.uploadPausedEv cid], reg := regDelete reg cid,
        db := saveUploadState db st2, tokenFired := true, serverCalled := false }

/-- Model of `UploadHandler.handleCancel`: return silently when the content id
is not registered; otherwise fire the token, delete the upload record and its
chunks from the store, call the server `cancelUpload` (logging either outcome,
a failure is only logged), broadcast `UPLOAD_CANCELLED` and drop the registry
entry. -/
def handleCancel (reg : Registry) (db : Db) (cid : String) (serverCancelOk : Bool) : CtlOut :=
  match regGet reg cid with
  | none => { events := [], reg := reg, db := db, tokenFired := false, serverCalled := false }
  | some st =>
      let db1 := deleteUploadState db cid
      let db2 := deleteChunks db1 st.uploadId
      let logEvs :=
        if serverCancelOk then [Event.logEv "info" "Successfully cancelled upload"]
        else [Event.logEv "error" "Error cancelling upload"]
      { events := logEvs ++ [Event.uploadCancelledEv cid], reg := regDelete reg cid,
        db := db2, tokenFired := true, serverCalled := true }

/-! ### Transfer acceleration (`ApiClient`)

`transformToAcceleratedUrl` rewrites with
`url.replace(/\.s3\.([^.]+)\.amazonaws\.com/, "." + endpoint)`: the leftmost
occurrence of a literal `.s3.`, one or more non-dot characters, then a
literal `.amazonaws.com`, is replaced once. The regex is embedded as a
scanner over character lists. -/

/-- Model of `ApiClient.shouldUseAcceleration`. -/
def shouldUseAcceleration (fileSize : Nat) : Bool :=
  ACCEL_ENABLED && decide (ACCEL_MIN_SIZE ≤ fileSize)

/-- Model of `if (data.accelerationEndpoint) this.accelerationEndpoint = ...`
in `initiateMultipartUpload`: the field is stored whenever the response
carries a truthy (non-empty) endpoint, regardless of the file size. -/
def endpointAfterInitiate (prev : Option String) (respEndpoint : Option String) :
    Option String :=
  match respEndpoint with
  | some e => if e = "" then prev else some e
  | none => prev

/-- If `pat` is an initial run of `l`, return the remainder of `l` after it. -/
def charsAfterPat : List Char → List Char → Option (List Char)
  | [], rest => some rest
  | _ :: _, [] => none
  | p :: ps, c :: cs => if p = c then charsAfterPat ps cs else none

/-- Skip the maximal run of non-dot characters (the greedy `[^.]+`). -/
def skipRegion : List Char → List Char
  | [] => []
  | c :: cs => if c = '.' then c :: cs else skipRegion cs

/-- Try the regex `\.s3\.([^.]+)\.amazonaws\.com` anchored at the head of
`l`; on a match return the remainder after the matched text. -/
def matchAccelAt (l : List Char) : Option (List Char) :=
  match charsAfterPat ".s3.".data l with
  | none => none
  | some rest =>
      match rest with
      | [] => none
      | c :: _ =>
          if c = '.' then none
          else charsAfterPat ".amazonaws.com".data (skipRegion rest)

/-- Replace the leftmost regex match with `"." + endpoint` (the non-global
`String.prototype.replace`). -/
def replaceAccel (endpoint : List Char) : List Char → List Char
  | [] => []
  | c :: cs =>
      match matchAccelAt (c :: cs) with
      | some rest => '.' :: (endpoint ++ rest)
      | none => c :: replaceAccel endpoint cs

/-- No position of `l` matches the acceleration host regex. -/
def noAccelMatch : List Char → Bool
  | [] => true
  | c :: cs => (matchAccelAt (c :: cs)).isNone && noAccelMatch cs

/-- Model of `ApiClient.transformToAcceleratedUrl`: pass the URL through
unchanged when no (truthy) acceleration endpoint is stored, else rewrite. -/
def transformToAcceleratedUrl (endpoint : Option String) (url : String) : String :=
  match endpoint with
  | none => url
  | some e => if e = "" then url else ⟨replaceAccel e.data url.data⟩

/-! ### Trace observations -/

/-- Progress values of the `UPLOAD_PROGRESS` events of a trace, in order. -/
def progressValues (evs : List Event) : List Nat :=
  evs.filterMap fun e =>
    match e with
    | .progressEv _ p _ _ => some p
    | _ => none

/-- The `(attempt, nextAttemptDelay)` pairs of the `RETRYING_CHUNK` events of
a trace, in order. -/
def retryingPairs (evs : List Event) : List (Nat × Nat) :=
  evs.filterMap fun e =>
    match e with
    | .retryingChunk _ _ attempt _ delay => some (attempt, delay)
    | _ => none

/-- Part numbers the driver skipped as already complete, in order. -/
def skippedNumbers (evs : List Event) : List Nat :=
  evs.filterMap fun e =>
    match e with
    | .skippedPart pn => some pn
    | _ => none

/-- Whether the trace carries an `UPLOAD_COMPLETE` broadcast. -/
def hasUploadComplete (evs : List Event) : Bool :=
  evs.any fun e =>
    match e with
    | .uploadComplete _ _ => true
    | _ => false

/-- Scan the trace keeping the number of part PUTs currently in flight,
failing (with `none`) as soon as a second PUT would be in flight at once or
a settle has no matching start; returns the final in-flight count
otherwise. -/
def inFlightScan : List Event → Nat → Option Nat
  | [], n => some n
  | .putStarted _ :: es, n => if n = 0 then inFlightScan es 1 else none
  | .putSettled _ :: es, n => if n = 1 then inFlightScan es 0 else none
  | _ :: es, n => inFlightScan es n

/-- Number of part PUT attempts recorded in a trace. -/
def putAttempts (evs : List Event) : Nat :=
  (evs.filterMap fun e =>
    match e with
    | .putStarted pn => some pn
    | _ => none).length

/-! ### Concrete scenario inputs used by the individual claim analyses -/

/-- An upload state over a 20-byte file in 10-byte parts whose locally
persisted `parts` list already records part 1. -/
def stC1 : UState :=
  { id := "cid1", contentId := "cid1", uploadId := "up1", key := "k1",
    fileName := "f.mp4", fileSize := 20, partSize := 10, maxConcurrentUploads := 5,
    progress := 50, status := UStatus.inProgress, parts := [⟨1, "etag1", 10⟩],
    errMsg := none, fileUrl := none }

/-- Environment where `listUploadedParts` succeeds with an empty list. -/
def envC1ok : PartEnv :=
  { listPartsResult := .ok [], partCall := fun _ _ => .success "e",
    completeResult := .ok "loc" }

/-- Environment where `listUploadedParts` rejects. -/
def envC1fail : PartEnv :=
  { listPartsResult := .error (.retryableErr "Failed to list uploaded parts"),
    partCall := fun _ _ => .success "e", completeResult := .ok "loc" }

/-- A five-part upload state with the default concurrency ceiling. -/
def stC3 : UState :=
  { id := "cid3", contentId := "cid3", uploadId := "up3", key := "k3",
    fileName := "g.mp4", fileSize := 50, partSize := 10, maxConcurrentUploads := 5,
    progress := 0, status := UStatus.inProgress, parts := [], errMsg := none,
    fileUrl := none }

def envC3 : PartEnv :=
  { listPartsResult := .ok [], partCall := fun _ _ => .success "e",
    completeResult := .ok "loc" }

def respC4 : InitResp :=
  { uploadId := "upload-1", key := "key-1", contentId := "server-cid",
    accelerationEndpoint := none }

def envC4 : PartEnv :=
  { listPartsResult := .ok [], partCall := fun _ _ => .success "e",
    completeResult := .error (.fatalErr "Failed to complete multipart upload") }

/-- A persisted upload whose status is `error`. -/
def stC5 : UState :=
  { id := "cid5", contentId := "cid5", uploadId := "up5", key := "k5",
    fileName := "h.mp4", fileSize := 20, partSize := 10, maxConcurrentUploads := 5,
    progress := 50, status := UStatus.errorSt, parts := [⟨1, "etag1", 10⟩],
    errMsg := some "boom", fileUrl := none }

def dbC5 : Db := ⟨[("cid5", stC5)], []⟩

def envC5 : PartEnv :=
  { listPartsResult := .ok [], partCall := fun _ _ => .success "e",
    completeResult := .ok "loc" }

/-- The paused variant of `stC5`, used to exercise the resume path. -/
def stC5p : UState := { stC5 with status := UStatus.paused }

def dbC5p : Db := ⟨[("cid5", stC5p)], []⟩

def respC6 : InitResp :=
  { uploadId := "up6", key := "k6", contentId := "cid6", accelerationEndpoint := none }

/-- First run of the C6 scenario: parts succeed, the final
`completeMultipartUpload` rejects fatally. -/
def envC6a : PartEnv :=
  { listPartsResult := .ok [], partCall := fun _ _ => .success "e",
    completeResult := .error (.fatalErr "Failed to complete multipart upload") }

/-- Second run of the C6 scenario, after a worker restart: the reconcile
`listUploadedParts` rejects, every part PUT succeeds, complete succeeds. -/
def envC6b : PartEnv :=
  { listPartsResult := .error (.retryableErr "Failed to list uploaded parts"),
    partCall := fun _ _ => .success "e", completeResult := .ok "loc" }

/-- START_UPLOAD of a 25-byte file in 10-byte parts (three parts), driven
until the complete call fails. -/
def runC6a : RunOut :=
  handleUploadStart envC6a [] ⟨[], []⟩ "u0" respC6 "f.mp4" 25 (some 10) none

/-- Cold restart: `loadOngoingUploads` over the persisted store of the first
run, with a fresh (empty) registry. -/
def runC6b : List Event × Registry × Db × Except JsError Unit :=
  loadOngoingUploads envC6b [] runC6a.db

/-- The combined broadcast trace of the upload of the C6 scenario. -/
def traceC6 : List Event := runC6a.events ++ runC6b.1

def stC9 : UState :=
  { id := "cid9", contentId := "cid9", uploadId := "up9", key := "k9",
    fileName := "i.mp4", fileSize := 20, partSize := 10, maxConcurrentUploads := 5,
    progress := 50, status := UStatus.inProgress, parts := [⟨1, "e", 10⟩],
    errMsg := none, fileUrl := none }

def regC9 : Registry := [("cid9", stC9)]

def dbC9 : Db :=
  ⟨[("cid9", stC9)], [⟨"chunk1", "up9", 1⟩, ⟨"chunk2", "other", 2⟩]⟩

/-! ## Helper lemmas -/

theorem find?_filter_ne {α : Type} (f : α → String) (x : String) (l : List α) :
    (l.filter (fun a => decide (f a ≠ x))).find? (fun a => decide (f a = x)) = none := by
  induction l with
  | nil => rfl
  | cons a l ih =>
      by_cases h : f a = x <;>
        simp [List.filter_cons, List.find?_cons, h, ih]

theorem filter_filter_ne {α : Type} (f : α → String) (x : String) (l : List α) :
    (l.filter (fun a => decide (f a ≠ x))).filter (fun a => decide (f a = x)) = [] := by
  induction l with
  | nil => rfl
  | cons a l ih =>
      by_cases h : f a = x <;> simp [List.filter_cons, h, ih]

theorem loadUploadState_delete (db : Db) (cid : String) :
    loadUploadState (deleteUploadState db cid) cid = none := by
  have := find?_filter_ne (fun p : String × UState => p.1) cid db.uploads
  simp [loadUploadState, deleteUploadState, this]

theorem loadChunks_delete (db : Db) (uid : String) :
    loadChunks (deleteChunks db uid) uid = [] := by
  have := filter_filter_ne (fun c : ChunkRec => c.uploadId) uid db.chunks
  simp [loadChunks, deleteChunks, this]

theorem regGet_regDelete (reg : Registry) (cid : String) :
    regGet (regDelete reg cid) cid = none := by
  have := find?_filter_ne (fun p : String × UState => p.1) cid reg
  simp [regGet, regDelete, this]

theorem loadUploadState_save (db : Db) (st : UState) :
    loadUploadState (saveUploadState db st) st.id = some st := by
  have := find?_filter_ne (fun p : String × UState => p.1) st.id db.uploads
  simp [loadUploadState, saveUploadState, List.find?_append, this]

/-- A run of the acceleration rewrite leaves a character list untouched when
no position of it matches the host regex. -/
theorem replaceAccel_of_noMatch (ep : List Char) (l : List Char)
    (h : noAccelMatch l = true) : replaceAccel ep l = l := by
  induction l with
  | nil => rfl
  | cons c cs ih =>
      simp only [noAccelMatch, Bool.and_eq_true, Option.isNone_iff_eq_none] at h
      obtain ⟨h1, h2⟩ := h
      simp [replaceAccel, h1, ih h2]

/-- Shape of the `RETRYING_CHUNK` events of one handler-level part upload,
generalized over the remaining budget and the current retry count: there are
at most `budget` of them, and the `i`-th (0-based) carries attempt
`retryCount + 1 + i` and delay `min(1000 * 2^(retryCount + i), 30000)`. -/
theorem uploadPartGo_retrying (oracle : Nat → PartCallResult) (cid : String)
    (pn cs : Nat) : ∀ budget retryCount, ∃ m, m ≤ budget ∧
      retryingPairs (uploadPartGo oracle cid pn cs retryCount budget).1
        = (List.range m).map
            (fun i => (retryCount + 1 + i, min (1000 * 2 ^ (retryCount + i)) 30000)) := by
  intro budget
  induction budget with
  | zero =>
      intro r
      refine ⟨0, Nat.le_refl 0, ?_⟩
      cases horacle : oracle r <;> simp [uploadPartGo, horacle, retryingPairs]
  | succ b ih =>
      intro r
      cases horacle : oracle r with
      | success etag =>
          exact ⟨0, Nat.zero_le _, by simp [uploadPartGo, horacle, retryingPairs]⟩
      | failure e =>
          by_cases hretry : (isRetryableInstance e && !isDomAbortError e) = true
          · obtain ⟨m, hm, he⟩ := ih (r + 1)
            refine ⟨m + 1, by omega, ?_⟩
            have hfun :
                (fun i => (r + 1 + 1 + i, min (1000 * 2 ^ (r + 1 + i)) 30000))
                  = (fun i => (r + 1 + (i + 1), min (1000 * 2 ^ (r + (i + 1))) 30000)) := by
              funext i
              rw [show r + 1 + 1 + i = r + 1 + (i + 1) by omega,
                show r + 1 + i = r + (i + 1) by omega]
            simp only [uploadPartGo, horacle, hretry, if_true, retryingPairs,
              List.filterMap_cons] at he ⊢
            rw [he, hfun, List.range_succ_eq_map, List.map_cons, List.map_map]
            rfl
          · exact ⟨0, Nat.zero_le _,
              by simp [uploadPartGo, horacle, hretry, retryingPairs]⟩

theorem progressValues_append (a b : List Event) :
    progressValues (a ++ b) = progressValues a ++ progressValues b :=
  List.filterMap_append a b _

theorem skippedNumbers_append (a b : List Event) :
    skippedNumbers (a ++ b) = skippedNumbers a ++ skippedNumbers b :=
  List.filterMap_append a b _

/-- The monotonicity of the progress formula in the completed-parts count. -/
theorem progressOf_mono (t : Nat) {a b : Nat} (h : a ≤ b) :
    progressOf a t ≤ progressOf b t :=
  Nat.div_le_div_right (Nat.add_le_add_right (Nat.mul_le_mul_left 200 h) t)

/-- A handler-level part upload broadcasts no `UPLOAD_PROGRESS`. -/
theorem uploadPartGo_progressValues (oracle : Nat → PartCallResult) (cid : String)
    (pn cs : Nat) : ∀ budget retryCount,
    progressValues (uploadPartGo oracle cid pn cs retryCount budget).1 = [] := by
  intro budget
  induction budget with
  | zero =>
      intro r
      cases horacle : oracle r <;> simp [uploadPartGo, horacle, progressValues]
  | succ b ih =>
      intro r
      cases horacle : oracle r with
      | success etag => simp [uploadPartGo, horacle, progressValues]
      | failure e =>
          by_cases hretry : (isRetryableInstance e && !isDomAbortError e) = true
          · simp only [uploadPartGo, horacle, hretry, if_true, progressValues,
              List.filterMap_cons]
            exact ih (r + 1)
          · simp [uploadPartGo, horacle, hretry, progressValues]

/-- A handler-level part upload logs no skip line. -/
theorem uploadPartGo_skippedNumbers (oracle : Nat → PartCallResult) (cid : String)
    (pn cs : Nat) : ∀ budget retryCount,
    skippedNumbers (uploadPartGo oracle cid pn cs retryCount budget).1 = [] := by
  intro budget
  induction budget with
  | zero =>
      intro r
      cases horacle : oracle r <;> simp [uploadPartGo, horacle, skippedNumbers]
  | succ b ih =>
      intro r
      cases horacle : oracle r with
      | success etag => simp [uploadPartGo, horacle, skippedNumbers]
      | failure e =>
          by_cases hretry : (isRetryableInstance e && !isDomAbortError e) = true
          · simp only [uploadPartGo, horacle, hretry, if_true, skippedNumbers,
              List.filterMap_cons]
            exact ih (r + 1)
          · simp [uploadPartGo, horacle, hretry, skippedNumbers]

theorem handleUploadError_events (reg : Registry) (db : Db) (cid : String)
    (e : JsError) :
    (handleUploadError reg db cid e).1 = [Event.uploadError cid (isRetryableInstance e)] := by
  cases h : regGet reg cid <;> simp [handleUploadError, h]

theorem getUploadedParts_events (env : PartEnv) :
    (getUploadedParts env).2 = [Event.logEv "info" "Retrieved uploaded parts"] ∨
    (getUploadedParts env).2 = [Event.logEv "error" "Failed to retrieve uploaded parts"] := by
  cases h : env.listPartsResult <;> simp [getUploadedParts, h]

/-- When the first attempt succeeds, a handler-level part upload is the plain
three-event success regardless of the budget. -/
theorem uploadPartGo_first_success (oracle : Nat → PartCallResult) (cid : String)
    (pn cs budget : Nat) (etag : String)
    (hp : oracle 0 = PartCallResult.success etag) :
    uploadPartGo oracle cid pn cs 0 budget
      = ([.putStarted pn, .putSettled pn, .chunkUploaded cid pn cs],
         .ok ⟨pn, etag, cs⟩) := by
  cases budget <;> simp [uploadPartGo, hp]

/-- Step equation of the loop at a part number already uploaded. -/
theorem uploadPartsLoop_step_skip (env : PartEnv) (totalParts : Nat) (nums : List Nat)
    (pn : Nat) (pns : List Nat) (reg : Registry) (db : Db) (st : UState)
    (c : Nat) (h : nums.contains pn = true) :
    uploadPartsLoop env totalParts nums (pn :: pns) reg db st c
      = { uploadPartsLoop env totalParts nums pns reg db st c with
          events := Event.skippedPart pn ::
            (uploadPartsLoop env totalParts nums pns reg db st c).events } := by
  simp only [uploadPartsLoop, h, if_true]

/-- Step equation of the loop at a part whose upload resolves. -/
theorem uploadPartsLoop_step_ok (env : PartEnv) (totalParts : Nat) (nums : List Nat)
    (pn : Nat) (pns : List Nat) (reg : Registry) (db : Db) (st : UState)
    (c : Nat) (part : UploadPartRec) (h : nums.contains pn = false)
    (hput : (uploadPartGo (env.partCall pn) st.contentId pn
        (chunkSizeOf st.fileSize st.partSize pn) 0 RETRY_ATTEMPTS).2 = .ok part) :
    uploadPartsLoop env totalParts nums (pn :: pns) reg db st c
      = (let st2 := { st with parts := st.parts ++ [part],
                              progress := progressOf (c + 1) totalParts }
         let put := uploadPartGo (env.partCall pn) st.contentId pn
             (chunkSizeOf st.fileSize st.partSize pn) 0 RETRY_ATTEMPTS
         let rest := uploadPartsLoop env totalParts nums pns
             (regSet reg st.contentId st2) (saveUploadState db st2) st2 (c + 1)
         { rest with
             events := put.1 ++
               Event.progressEv st.contentId (progressOf (c + 1) totalParts)
                 ((c + 1) * st.partSize) st.fileSize :: rest.events }) := by
  simp only [uploadPartsLoop, h, Bool.false_eq_true, if_false, hput]

/-- Step equation of the loop at a part whose upload rejects. -/
theorem uploadPartsLoop_step_err (env : PartEnv) (totalParts : Nat) (nums : List Nat)
    (pn : Nat) (pns : List Nat) (reg : Registry) (db : Db) (st : UState)
    (c : Nat) (e : JsError) (h : nums.contains pn = false)
    (hput : (uploadPartGo (env.partCall pn) st.contentId pn
        (chunkSizeOf st.fileSize st.partSize pn) 0 RETRY_ATTEMPTS).2 = .error e) :
    uploadPartsLoop env totalParts nums (pn :: pns) reg db st c
      = { events := (uploadPartGo (env.partCall pn) st.contentId pn
            (chunkSizeOf st.fileSize st.partSize pn) 0 RETRY_ATTEMPTS).1 ++
            (handleUploadError reg db st.contentId e).1,
          reg := (handleUploadError reg db st.contentId e).2.1,
          db := (handleUploadError reg db st.contentId e).2.2,
          st := st, outcome := .error e } := by
  simp only [uploadPartsLoop, h, Bool.false_eq_true, if_false, hput]

/-- The progress values emitted by the part loop are consecutive images of
`progressOf`, starting right above the seed count. -/
theorem loop_progressValues (env : PartEnv) (totalParts : Nat) (nums : List Nat) :
    ∀ pns (reg : Registry) (db : Db) (st : UState) (completed : Nat), ∃ k,
      progressValues (uploadPartsLoop env totalParts nums pns reg db st completed).events
        = (List.range k).map (fun i => progressOf (completed + 1 + i) totalParts) := by
  intro pns
  induction pns with
  | nil =>
      intro reg db st c
      exact ⟨0, by simp [uploadPartsLoop, progressValues]⟩
  | cons pn pns ih =>
      intro reg db st c
      cases hskip : nums.contains pn with
      | true =>
          obtain ⟨k, hk⟩ := ih reg db st c
          refine ⟨k, ?_⟩
          rw [uploadPartsLoop_step_skip env totalParts nums pn pns reg db st c hskip]
          simpa [progressValues, List.filterMap_cons] using hk
      | false =>
          cases hput : (uploadPartGo (env.partCall pn) st.contentId pn
              (chunkSizeOf st.fileSize st.partSize pn) 0 RETRY_ATTEMPTS).2 with
          | ok part =>
              obtain ⟨k, hk⟩ := ih
                (regSet reg st.contentId
                  { st with parts := st.parts ++ [part],
                            progress := progressOf (c + 1) totalParts })
                (saveUploadState db
                  { st with parts := st.parts ++ [part],
                            progress := progressOf (c + 1) totalParts })
                { st with parts := st.parts ++ [part],
                          progress := progressOf (c + 1) totalParts } (c + 1)
              refine ⟨k + 1, ?_⟩
              have hpv := uploadPartGo_progressValues (env.partCall pn) st.contentId pn
                (chunkSizeOf st.fileSize st.partSize pn) RETRY_ATTEMPTS 0
              have hfun :
                  (fun i => progressOf (c + 1 + (i + 1)) totalParts)
                    = (fun i => progressOf (c + 1 + 1 + i) totalParts) := by
                funext i
                rw [show c + 1 + (i + 1) = c + 1 + 1 + i by omega]
              rw [uploadPartsLoop_step_ok env totalParts nums pn pns reg db st c part
                hskip hput]
              rw [List.range_succ_eq_map, List.map_cons, List.map_map]
              simp only [progressValues, List.filterMap_append, List.filterMap_cons] at hpv hk ⊢
              rw [hpv, hk]
              simp only [Function.comp_def, Nat.succ_eq_add_one, hfun]
              rfl
          | error e =>
              refine ⟨0, ?_⟩
              have hpv := uploadPartGo_progressValues (env.partCall pn) st.contentId pn
                (chunkSizeOf st.fileSize st.partSize pn) RETRY_ATTEMPTS 0
              have herr := handleUploadError_events reg db st.contentId e
              rw [uploadPartsLoop_step_err env totalParts nums pn pns reg db st c e
                hskip hput]
              simp only [progressValues, List.filterMap_append] at hpv ⊢
              rw [hpv, herr]
              rfl

theorem progressValues_uploadComplete (c l : String) :
    progressValues [Event.uploadComplete c l] = [] := rfl

theorem skippedNumbers_uploadComplete (c l : String) :
    skippedNumbers [Event.uploadComplete c l] = [] := rfl

theorem gp_progressValues (env : PartEnv) :
    progressValues (getUploadedParts env).2 = [] := by
  cases h : env.listPartsResult <;> simp [getUploadedParts, h, progressValues]

theorem gp_skippedNumbers (env : PartEnv) :
    skippedNumbers (getUploadedParts env).2 = [] := by
  cases h : env.listPartsResult <;> simp [getUploadedParts, h, skippedNumbers]

/-- The progress values of a whole part-driving run are consecutive images of
`progressOf`, seeded by the length of the reconcile list. -/
theorem run_progressValues (env : PartEnv) (reg : Registry) (db : Db) (st : UState) :
    ∃ k, progressValues (uploadPartsRun env reg db st).events
      = (List.range k).map (fun i =>
          progressOf ((getUploadedParts env).1.length + 1 + i)
            (totalPartsOf st.fileSize st.partSize)) := by
  obtain ⟨k, hk⟩ := loop_progressValues env (totalPartsOf st.fileSize st.partSize)
      ((getUploadedParts env).1.map (fun p => p.partNumber))
      (List.range' 1 (totalPartsOf st.fileSize st.partSize)) reg db st
      ((getUploadedParts env).1.length)
  refine ⟨k, ?_⟩
  have hgp := gp_progressValues env
  simp only [uploadPartsRun]
  split
  · simp only [progressValues_append, hgp, hk]
    rfl
  · split
    · simp only [progressValues_append, hgp, hk, progressValues_uploadComplete]
      simp
    · simp only [progressValues_append, hgp, hk]
      rfl

/-- The numbers the part loop skips are exactly the visited part numbers that
lie in the reconcile set, provided every attempted part succeeds on its first
try (so the loop is not cut short by a rejection). -/
theorem loop_skippedNumbers (env : PartEnv) (totalParts : Nat) (nums : List Nat)
    (hok : ∀ p, ∃ etag, env.partCall p 0 = PartCallResult.success etag) :
    ∀ pns (reg : Registry) (db : Db) (st : UState) (completed : Nat),
      skippedNumbers (uploadPartsLoop env totalParts nums pns reg db st completed).events
        = pns.filter (fun p => nums.contains p) := by
  intro pns
  induction pns with
  | nil =>
      intro reg db st c
      simp [uploadPartsLoop, skippedNumbers]
  | cons pn pns ih =>
      intro reg db st c
      cases hskip : nums.contains pn with
      | true =>
          rw [uploadPartsLoop_step_skip env totalParts nums pn pns reg db st c hskip]
          have := ih reg db st c
          simp only [skippedNumbers, List.filterMap_cons] at this ⊢
          rw [List.filter_cons, if_pos hskip]
          simpa using this
      | false =>
          obtain ⟨etag, hp⟩ := hok pn
          have hfirst := uploadPartGo_first_success (env.partCall pn) st.contentId pn
            (chunkSizeOf st.fileSize st.partSize pn) RETRY_ATTEMPTS etag hp
          rw [uploadPartsLoop_step_ok env totalParts nums pn pns reg db st c
            ⟨pn, etag, chunkSizeOf st.fileSize st.partSize pn⟩ hskip (by rw [hfirst])]
          have := ih (regSet reg st.contentId
              { st with parts := st.parts ++ [⟨pn, etag, chunkSizeOf st.fileSize st.partSize pn⟩],
                        progress := progressOf (c + 1) totalParts })
            (saveUploadState db
              { st with parts := st.parts ++ [⟨pn, etag, chunkSizeOf st.fileSize st.partSize pn⟩],
                        progress := progressOf (c + 1) totalParts })
            { st with parts := st.parts ++ [⟨pn, etag, chunkSizeOf st.fileSize st.partSize pn⟩],
                      progress := progressOf (c + 1) totalParts } (c + 1)
          rw [List.filter_cons, if_neg (by rw [hskip]; exact Bool.false_ne_true)]
          simp only [hfirst]
          simp only [skippedNumbers, List.filterMap_append, List.filterMap_cons] at this ⊢
          simpa using this

/-- The skip set of a whole run, under first-attempt success. -/
theorem run_skippedNumbers (env : PartEnv) (reg : Registry) (db : Db) (st : UState)
    (hok : ∀ p, ∃ etag, env.partCall p 0 = PartCallResult.success etag) :
    skippedNumbers (uploadPartsRun env reg db st).events
      = (List.range' 1 (totalPartsOf st.fileSize st.partSize)).filter
          (fun p => ((getUploadedParts env).1.map (fun q => q.partNumber)).contains p) := by
  have hloop := loop_skippedNumbers env (totalPartsOf st.fileSize st.partSize)
      ((getUploadedParts env).1.map (fun q => q.partNumber)) hok
      (List.range' 1 (totalPartsOf st.fileSize st.partSize)) reg db st
      ((getUploadedParts env).1.length)
  have hgp := gp_skippedNumbers env
  simp only [uploadPartsRun]
  split
  · simp only [skippedNumbers_append, hgp, hloop]
    rfl
  · split
    · simp only [skippedNumbers_append, hgp, hloop, skippedNumbers_uploadComplete]
      simp
    · simp only [skippedNumbers_append, hgp, hloop]
      rfl

theorem inFlightScan_append (a b : List Event) : ∀ n,
    inFlightScan (a ++ b) n = (inFlightScan a n).bind (fun m => inFlightScan b m) := by
  induction a with
  | nil => intro n; rfl
  | cons e es ih =>
      intro n
      cases e <;> simp only [List.cons_append, inFlightScan] <;>
        first
          | exact ih n
          | (split <;> simp [ih])

/-- A handler-level part upload keeps exactly one PUT in flight at a time,
and none once it settles. -/
theorem uploadPartGo_scan (oracle : Nat → PartCallResult) (cid : String) (pn cs : Nat) :
    ∀ budget retryCount,
      inFlightScan (uploadPartGo oracle cid pn cs retryCount budget).1 0 = some 0 := by
  intro budget
  induction budget with
  | zero =>
      intro r
      cases horacle : oracle r <;> simp [uploadPartGo, horacle, inFlightScan]
  | succ b ih =>
      intro r
      cases horacle : oracle r with
      | success etag => simp [uploadPartGo, horacle, inFlightScan]
      | failure e =>
          by_cases hretry : (isRetryableInstance e && !isDomAbortError e) = true
          · simp only [uploadPartGo, horacle, hretry, if_true, inFlightScan,
              if_pos rfl]
            exact ih (r + 1)
          · simp [uploadPartGo, horacle, hretry, inFlightScan]

theorem handleUploadError_scan (reg : Registry) (db : Db) (cid : String)
    (e : JsError) (n : Nat) :
    inFlightScan (handleUploadError reg db cid e).1 n = some n := by
  rw [handleUploadError_events]
  rfl

theorem gp_scan (env : PartEnv) (n : Nat) :
    inFlightScan (getUploadedParts env).2 n = some n := by
  cases h : env.listPartsResult <;> simp [getUploadedParts, h, inFlightScan]

/-- The part loop keeps at most one PUT in flight at every moment. -/
theorem loop_scan (env : PartEnv) (totalParts : Nat) (nums : List Nat) :
    ∀ pns (reg : Registry) (db : Db) (st : UState) (completed : Nat),
      inFlightScan (uploadPartsLoop env totalParts nums pns reg db st completed).events 0
        = some 0 := by
  intro pns
  induction pns with
  | nil =>
      intro reg db st c
      simp [uploadPartsLoop, inFlightScan]
  | cons pn pns ih =>
      intro reg db st c
      cases hskip : nums.contains pn with
      | true =>
          rw [uploadPartsLoop_step_skip env totalParts nums pn pns reg db st c hskip]
          simp only [inFlightScan]
          exact ih reg db st c
      | false =>
          cases hput : (uploadPartGo (env.partCall pn) st.contentId pn
              (chunkSizeOf st.fileSize st.partSize pn) 0 RETRY_ATTEMPTS).2 with
          | ok part =>
              rw [uploadPartsLoop_step_ok env totalParts nums pn pns reg db st c part
                hskip hput]
              simp only [inFlightScan_append, uploadPartGo_scan, Option.some_bind]
              simp only [inFlightScan]
              exact ih _ _ _ _
          | error e =>
              rw [uploadPartsLoop_step_err env totalParts nums pn pns reg db st c e
                hskip hput]
              simp only [inFlightScan_append, uploadPartGo_scan, Option.some_bind]
              exact handleUploadError_scan reg db st.contentId e 0

/-! ## Claim analyses -/

/-- C2: the claim is that a timeout-caused cancellation becomes a Retryable
error while a cancellation from the external cancel token propagates
unchanged and is never retried. The code behaves otherwise: `fetchWithTimeout`
cannot distinguish the two abort sources (both reject with the same
`AbortError` `DOMException`), so an externally cancelled PUT is also rethrown
as `RetryableError("Request timed out")`; `fetchWithRetry` then retries it
(four attempts for one PUT), and the part driver, whose
`error instanceof DOMException` guard can therefore never fire, broadcasts
`RETRYING_CHUNK` and re-attempts the part. -/
theorem C2_code_behavior :
    fetchWithTimeout FetchCause.externallyCancelled
        = Except.error (JsError.retryableErr "Request timed out") ∧
    fetchWithTimeout FetchCause.timedOut
        = Except.error (JsError.retryableErr "Request timed out") ∧
    (fetchWithRetry (fun _ => FetchCause.externallyCancelled) RETRY_ATTEMPTS 0).1 = 4 ∧
    retryingPairs (uploadPartGo
        (fun r => if r = 0 then PartCallResult.failure (JsError.retryableErr "Request timed out")
                  else PartCallResult.success "etag") "cid" 1 10 0 RETRY_ATTEMPTS).1
      = [(1, 1000)] := by
  decide

/-- C4: the claim is that the START_UPLOAD handler generates no contentId
locally and that the emitted `INITIATE_UPLOAD_RESPONSE` carries the
server-assigned identity. In the code `initializeNewUpload` does draw a local
`crypto.randomUUID()` and broadcasts `INITIATE_UPLOAD_RESPONSE` with that
local value, while the constructed `UploadState` (and the registry key) use
the server-assigned `content.id`; with a local uuid distinct from the server
id, the emitted identifier matches nothing in the registry. -/
theorem C4_code_behavior :
    (initNewUpload "local-uuid" respC4 "f.mp4" 25 (some 10) none).1
      = [Event.logEv "info" "Starting upload",
         Event.initiateResponse "local-uuid" "upload-1" "key-1"] ∧
    (initNewUpload "local-uuid" respC4 "f.mp4" 25 (some 10) none).2.contentId
      = "server-cid" ∧
    ("local-uuid" : String) ≠ "server-cid" ∧
    regGet (handleUploadStart envC4 [] ⟨[], []⟩ "local-uuid" respC4 "f.mp4" 25
        (some 10) none).reg "local-uuid" = none ∧
    (regGet (handleUploadStart envC4 [] ⟨[], []⟩ "local-uuid" respC4 "f.mp4" 25
        (some 10) none).reg "server-cid").isSome = true := by
  decide

/-- C9: after CANCEL_UPLOAD of a registered upload, the persisted record and
its chunks are purged (`loadUploadState` absent, `loadChunks` empty), the
`UPLOAD_CANCELLED` broadcast is the final event, the registry entry is gone,
the cancel token was fired and the server was called; and a server-side
`cancelUpload` failure changes neither the resulting store nor the registry
(it is only logged). -/
theorem C9_theorem (reg : Registry) (db : Db) (cid : String) (st : UState)
    (serverOk : Bool) (h : regGet reg cid = some st) :
    loadUploadState (handleCancel reg db cid serverOk).db cid = none ∧
    loadChunks (handleCancel reg db cid serverOk).db st.uploadId = [] ∧
    (handleCancel reg db cid serverOk).events.getLast?
      = some (Event.uploadCancelledEv cid) ∧
    regGet (handleCancel reg db cid serverOk).reg cid = none ∧
    (handleCancel reg db cid serverOk).tokenFired = true ∧
    (handleCancel reg db cid serverOk).serverCalled = true ∧
    (handleCancel reg db cid false).db = (handleCancel reg db cid true).db ∧
    (handleCancel reg db cid false).reg = (handleCancel reg db cid true).reg := by
  have hload : loadUploadState (deleteChunks (deleteUploadState db cid) st.uploadId) cid
      = none := by
    have := find?_filter_ne (fun p : String × UState => p.1) cid db.uploads
    simp [loadUploadState, deleteChunks, deleteUploadState, this]
  refine ⟨?_, ?_, ?_, ?_, ?_, ?_, ?_, ?_⟩ <;>
    cases serverOk <;>
      simp [handleCancel, h, hload, loadChunks_delete, regGet_regDelete]

/-- Witness for C9 at a concrete registry, store and upload, with the server
cancel failing. -/
theorem C9_witness :
    loadUploadState (handleCancel regC9 dbC9 "cid9" false).db "cid9" = none ∧
    loadChunks (handleCancel regC9 dbC9 "cid9" false).db stC9.uploadId = [] ∧
    (handleCancel regC9 dbC9 "cid9" false).events.getLast?
      = some (Event.uploadCancelledEv "cid9") ∧
    regGet (handleCancel regC9 dbC9 "cid9" false).reg "cid9" = none ∧
    (handleCancel regC9 dbC9 "cid9" false).tokenFired = true ∧
    (handleCancel regC9 dbC9 "cid9" false).serverCalled = true ∧
    (handleCancel regC9 dbC9 "cid9" false).db = (handleCancel regC9 dbC9 "cid9" true).db ∧
    (handleCancel regC9 dbC9 "cid9" false).reg = (handleCancel regC9 dbC9 "cid9" true).reg :=
  C9_theorem regC9 dbC9 "cid9" stC9 false (by decide)

/-- C10: for a contentId absent from the in-memory registry, PAUSE_UPLOAD and
CANCEL_UPLOAD return silently: no cancel token fired, no store mutation, no
server call, no broadcast. -/
theorem C10_theorem (reg : Registry) (db : Db) (cid : String)
    (h : regGet reg cid = none) :
    handlePause reg db cid
      = ⟨[], reg, db, false, false⟩ ∧
    handleCancel reg db cid true
      = ⟨[], reg, db, false, false⟩ ∧
    handleCancel reg db cid false
      = ⟨[], reg, db, false, false⟩ := by
  refine ⟨?_, ?_, ?_⟩ <;> simp [handlePause, handleCancel, h]

/-- Witness for C10 at a concrete store and an unregistered contentId. -/
theorem C10_witness :
    handlePause [] dbC9 "unknown-cid"
      = ⟨[], [], dbC9, false, false⟩ ∧
    handleCancel [] dbC9 "unknown-cid" true
      = ⟨[], [], dbC9, false, false⟩ ∧
    handleCancel [] dbC9 "unknown-cid" false
      = ⟨[], [], dbC9, false, false⟩ :=
  C10_theorem [] dbC9 "unknown-cid" (by decide)

/-- C5 fails on the code: for a persisted upload whose status is `error`,
RESUME_UPLOAD does not transition it back to `in_progress`; `handleResume`
only accepts `paused` states, so it logs `No paused upload found` and leaves
registry and store untouched, the status still `error`. -/
theorem C5_counterexample :
    (loadUploadState dbC5 "cid5").map (fun s => s.status) = some UStatus.errorSt ∧
    handleResume envC5 [] dbC5 "cid5"
      = ([Event.logEv "error" "No paused upload found"], [], dbC5) ∧
    (loadUploadState (handleResume envC5 [] dbC5 "cid5").2.2 "cid5").map
        (fun s => s.status) = some UStatus.errorSt := by
  decide

/-- C5 amended: only a `paused` upload is resumable. For a persisted state
with status `error`, RESUME_UPLOAD is a logged no-op; for a persisted state
with status `paused`, it transitions the state to `in_progress`, persists it
and drives the remaining parts (the `resumeDriven` pipeline). -/
theorem C5_theorem (env : PartEnv) (reg : Registry) (db : Db) (cid : String)
    (st : UState) (hload : loadUploadState db cid = some st) (hid : st.id = cid) :
    (st.status = UStatus.errorSt →
        handleResume env reg db cid
          = ([Event.logEv "error" "No paused upload found"], reg, db)) ∧
    (st.status = UStatus.paused →
        handleResume env reg db cid = resumeDriven env reg db cid st) := by
  constructor
  · intro hs
    simp [handleResume, hload, hs]
  · intro hs
    have hsave :
        loadUploadState (saveUploadState db { st with status := UStatus.inProgress }) cid
          = some { st with status := UStatus.inProgress } := by
      have := loadUploadState_save db { st with status := UStatus.inProgress }
      simpa [hid] using this
    simp [handleResume, hload, hs, hsave, resumeDriven]

/-- Witness for C5 on a concrete store holding one paused upload. -/
theorem C5_witness :
    (stC5p.status = UStatus.errorSt →
        handleResume envC5 [] dbC5p "cid5"
          = ([Event.logEv "error" "No paused upload found"], [], dbC5p)) ∧
    (stC5p.status = UStatus.paused →
        handleResume envC5 [] dbC5p "cid5" = resumeDriven envC5 [] dbC5p "cid5" stC5p) :=
  C5_theorem envC5 [] dbC5p "cid5" stC5p (by decide) (by decide)

/-- C7: across one part upload, at most `RETRY_ATTEMPTS` retries happen, and
the `k`-th `RETRYING_CHUNK` (1-based, here `k = i + 1`) carries attempt `k`
and `nextAttemptDelay = min(1000 * 2^(k-1), 30000)`, which is also the delay
slept before re-attempting the part. -/
theorem C7_theorem (oracle : Nat → PartCallResult) (cid : String) (pn cs : Nat) :
    RETRY_ATTEMPTS = 3 ∧ ∃ m, m ≤ RETRY_ATTEMPTS ∧
      retryingPairs (uploadPartGo oracle cid pn cs 0 RETRY_ATTEMPTS).1
        = (List.range m).map (fun i => (i + 1, min (1000 * 2 ^ i) 30000)) := by
  refine ⟨rfl, ?_⟩
  obtain ⟨m, hm, he⟩ := uploadPartGo_retrying oracle cid pn cs RETRY_ATTEMPTS 0
  refine ⟨m, hm, ?_⟩
  rw [he]
  apply List.map_congr_left
  intro i _
  rw [show 0 + 1 + i = i + 1 by omega, show 0 + i = i by omega]

/-- C8 fails on the code in two respects, exhibited concretely: first, the
rewrite is applied for a file far below `MIN_SIZE` whenever the initiate
response returned an endpoint (`shouldUseAcceleration` only shapes the
request flag, the stored endpoint ignores the size); second, the rewrite is
not idempotent on a URL containing the host pattern twice, because the
non-global `replace` rewrites one occurrence per application. -/
theorem C8_counterexample :
    shouldUseAcceleration 1000 = false ∧
    endpointAfterInitiate none (some DEFAULT_ACCEL_ENDPOINT)
      = some DEFAULT_ACCEL_ENDPOINT ∧
    transformToAcceleratedUrl (some DEFAULT_ACCEL_ENDPOINT)
        "https://bucket.s3.us-east-1.amazonaws.com/key"
      = "https://bucket.s3-accelerate.amazonaws.com/key" ∧
    transformToAcceleratedUrl (some DEFAULT_ACCEL_ENDPOINT)
        "https://bucket.s3.us-east-1.amazonaws.com/key"
      ≠ "https://bucket.s3.us-east-1.amazonaws.com/key" ∧
    transformToAcceleratedUrl (some DEFAULT_ACCEL_ENDPOINT)
        (transformToAcceleratedUrl (some DEFAULT_ACCEL_ENDPOINT)
          "a.s3.r.amazonaws.com.b.s3.r.amazonaws.com")
      ≠ transformToAcceleratedUrl (some DEFAULT_ACCEL_ENDPOINT)
          "a.s3.r.amazonaws.com.b.s3.r.amazonaws.com" := by
  decide

/-- C8 amended: URLs pass through unchanged when no endpoint is stored; once
the initiate response carried a non-empty endpoint the rewrite is applied to
every part URL with no reference to the file size; and the rewrite is
idempotent on URLs whose rewritten form contains no further occurrence of the
`.s3.<region>.amazonaws.com` pattern (in particular on ordinary signed URLs
with a single occurrence and the default endpoint). -/
theorem C8_theorem :
    (∀ url, transformToAcceleratedUrl none url = url) ∧
    (∀ e url, e ≠ "" →
        transformToAcceleratedUrl (endpointAfterInitiate none (some e)) url
          = String.mk (replaceAccel e.data url.data)) ∧
    (∀ e url, e ≠ "" → noAccelMatch (replaceAccel e.data url.data) = true →
        transformToAcceleratedUrl (some e) (transformToAcceleratedUrl (some e) url)
          = transformToAcceleratedUrl (some e) url) := by
  refine ⟨fun url => rfl, ?_, ?_⟩
  · intro e url he
    simp [endpointAfterInitiate, transformToAcceleratedUrl, he]
  · intro e url he h
    simp only [transformToAcceleratedUrl, if_neg he]
    exact congrArg String.mk (replaceAccel_of_noMatch e.data _ h)

/-- Witness for C8 idempotence at the default endpoint and a typical signed
URL. -/
theorem C8_witness :
    transformToAcceleratedUrl (some DEFAULT_ACCEL_ENDPOINT)
        (transformToAcceleratedUrl (some DEFAULT_ACCEL_ENDPOINT)
          "https://bucket.s3.us-east-1.amazonaws.com/key")
      = transformToAcceleratedUrl (some DEFAULT_ACCEL_ENDPOINT)
          "https://bucket.s3.us-east-1.amazonaws.com/key" :=
  C8_theorem.2.2 DEFAULT_ACCEL_ENDPOINT "https://bucket.s3.us-east-1.amazonaws.com/key"
    (by decide) (by decide)

/-- C1 fails on the code: with the server list empty (successful reconcile)
and the local `parts` list holding part 1, the claimed complete set (union)
is `{1}`, yet the driver skips nothing and re-PUTs part 1; and with the
reconcile call failing, the claimed fallback is the local list `{1}`, yet the
driver again skips nothing and re-PUTs part 1 (the fallback is empty). -/
theorem C1_counterexample :
    stC1.parts.map (fun p => p.partNumber) = [1] ∧
    envC1ok.listPartsResult = Except.ok [] ∧
    skippedNumbers (uploadPartsRun envC1ok [] ⟨[], []⟩ stC1).events = [] ∧
    Event.putStarted 1 ∈ (uploadPartsRun envC1ok [] ⟨[], []⟩ stC1).events ∧
    skippedNumbers (uploadPartsRun envC1fail [] ⟨[], []⟩ stC1).events = [] ∧
    Event.putStarted 1 ∈ (uploadPartsRun envC1fail [] ⟨[], []⟩ stC1).events := by
  decide

/-- C1 amended: the set of part numbers treated as already complete equals
exactly the server result of `listUploadedParts`, and when that call fails
the fallback is the empty set; the locally persisted `parts` list is never
consulted (the skip set below does not depend on `st.parts`). Stated for runs
whose part PUTs succeed on first attempt, so the loop visits every part
number. -/
theorem C1_theorem (env : PartEnv) (reg : Registry) (db : Db) (st : UState)
    (hok : ∀ p, ∃ etag, env.partCall p 0 = PartCallResult.success etag) :
    (∀ ps, env.listPartsResult = Except.ok ps → (getUploadedParts env).1 = ps) ∧
    (∀ e, env.listPartsResult = Except.error e → (getUploadedParts env).1 = []) ∧
    skippedNumbers (uploadPartsRun env reg db st).events
      = (List.range' 1 (totalPartsOf st.fileSize st.partSize)).filter
          (fun p => ((getUploadedParts env).1.map (fun q => q.partNumber)).contains p) := by
  refine ⟨?_, ?_, ?_⟩
  · intro ps h
    simp [getUploadedParts, h]
  · intro e h
    simp [getUploadedParts, h]
  · exact run_skippedNumbers env reg db st hok

/-- Witness for C1 on the concrete state whose local parts list holds part 1
while the server reports nothing. -/
theorem C1_witness :
    (∀ ps, envC1ok.listPartsResult = Except.ok ps → (getUploadedParts envC1ok).1 = ps) ∧
    (∀ e, envC1ok.listPartsResult = Except.error e → (getUploadedParts envC1ok).1 = []) ∧
    skippedNumbers (uploadPartsRun envC1ok [] ⟨[], []⟩ stC1).events
      = (List.range' 1 (totalPartsOf stC1.fileSize stC1.partSize)).filter
          (fun p => ((getUploadedParts envC1ok).1.map (fun q => q.partNumber)).contains p) :=
  C1_theorem envC1ok [] ⟨[], []⟩ stC1 (fun _ => ⟨"e", rfl⟩)

/-- C3 fails on the code at a concrete five-part upload with the default
concurrency ceiling of five: all five parts are PUT, yet the trace never has
two PUTs in flight at once (the scan succeeds, which forbids a second
concurrent start), so no semaphore ever admits up to `maxConcurrentUploads`
concurrent PUTs. -/
theorem C3_counterexample :
    stC3.maxConcurrentUploads = 5 ∧
    MAX_CONCURRENT_UPLOADS = 5 ∧
    totalPartsOf stC3.fileSize stC3.partSize = 5 ∧
    putAttempts (uploadPartsRun envC3 [] ⟨[], []⟩ stC3).events = 5 ∧
    inFlightScan (uploadPartsRun envC3 [] ⟨[], []⟩ stC3).events 0 = some 0 := by
  decide

/-- C3 amended: the part driver is strictly sequential. For every environment
and state, the trace of a part-driving run scans with at most one PUT in
flight at every moment (and all PUTs settled at the end); the stored
`maxConcurrentUploads` is never read by the driver, and there is no work
queue or semaphore. -/
theorem C3_theorem (env : PartEnv) (reg : Registry) (db : Db) (st : UState) :
    inFlightScan (uploadPartsRun env reg db st).events 0 = some 0 := by
  have hloop := loop_scan env (totalPartsOf st.fileSize st.partSize)
      ((getUploadedParts env).1.map (fun p => p.partNumber))
      (List.range' 1 (totalPartsOf st.fileSize st.partSize)) reg db st
      ((getUploadedParts env).1.length)
  simp only [uploadPartsRun]
  split
  · simp only [inFlightScan_append, gp_scan, Option.some_bind]
    exact hloop
  · split
    · simp only [inFlightScan_append, gp_scan, Option.some_bind, hloop]
      rfl
    · simp only [inFlightScan_append, gp_scan, Option.some_bind]
      exact hloop

/-- C6 fails on the code, exhibited on one upload driven twice: the first run
uploads three parts (progress 33, 67, 100) and then the complete call fails,
so its progress sequence ends at 100 with no `UPLOAD_COMPLETE`; after a cold
restart the resumed run re-reconciles, the list call fails, and progress
restarts at 33 — the combined per-contentId sequence 33, 67, 100, 33, 67, 100
is not monotone, while the second run does end in `UPLOAD_COMPLETE`. -/
theorem C6_counterexample :
    progressValues traceC6 = [33, 67, 100, 33, 67, 100] ∧
    (progressValues runC6a.events).getLast? = some 100 ∧
    hasUploadComplete runC6a.events = false ∧
    hasUploadComplete runC6b.1 = true := by
  decide

/-- C6 amended: within a single part-driving run the `UPLOAD_PROGRESS` values
are monotone non-decreasing; across runs of the same upload monotonicity can
break (when reconcile fails or under-reports), and a sequence ending at 100
need not end in `UPLOAD_COMPLETE` (the complete call can fail after the last
part). -/
theorem C6_theorem (env : PartEnv) (reg : Registry) (db : Db) (st : UState) :
    List.Pairwise (fun a b => a ≤ b)
      (progressValues (uploadPartsRun env reg db st).events) := by
  obtain ⟨k, hk⟩ := run_progressValues env reg db st
  rw [hk]
  refine List.Pairwise.map _ ?_ (List.pairwise_lt_range k)
  intro a b hab
  exact progressOf_mono _ (by omega)

end NextjsUpload
